import Mathlib

/-!
Shallow embedding of the conversation-reconstruction engine of `app.py`
(the `extract_chat_messages` entry point and the extractors it calls), and
proofs of the specified properties.

Modelling conventions:
* JSON values (as produced by `json.loads`) are modelled by `PyVal`, with
  JSON numbers restricted to integers and object keys kept in document order.
* `datetime` instants are modelled as integers (milliseconds since the epoch,
  with the local timezone idealised to UTC); `datetime.now()` is passed
  explicitly as a `now : Int` parameter.
* Python exceptions are modelled with `Except PyErr`; code paths that Python
  executes without any possible exception are plain functions.
* Python's `str.lower`, `str.strip`, `str.isdigit`, `str.isalnum` and `int()`
  are modelled on their ASCII behaviour (plus the Spanish letters appearing
  in the data) — the character classes the program actually meets.
-/

/-! ## String helpers (models of the Python string primitives used) -/

/-- `charListHasPrefix needle hay`: `needle` is a prefix of `hay`. -/
def charListHasPrefix : List Char → List Char → Bool
  | [], _ => true
  | _ :: _, [] => false
  | c :: cs, d :: ds => c = d && charListHasPrefix cs ds

/-- `charListFind needle hay`: `needle` occurs contiguously inside `hay`. -/
def charListFind (needle : List Char) : List Char → Bool
  | [] => needle.isEmpty
  | d :: ds => charListHasPrefix needle (d :: ds) || charListFind needle ds

/-- Model of Python's `needle in hay` substring test. -/
def strContains (hay needle : String) : Bool :=
  charListFind needle.toList hay.toList

/-- Model of Python's `str.startswith`. -/
def pyStartsWith (s pre : String) : Bool :=
  charListHasPrefix pre.toList s.toList

/-- Model of Python's `str.endswith`. -/
def pyEndsWith (s suf : String) : Bool :=
  charListHasPrefix suf.toList.reverse s.toList.reverse

/-- Lower-casing of one character: ASCII plus the accented Spanish letters. -/
def pyLowerChar (c : Char) : Char :=
  if c = 'Á' then 'á' else if c = 'É' then 'é' else if c = 'Í' then 'í'
  else if c = 'Ó' then 'ó' else if c = 'Ú' then 'ú' else if c = 'Ü' then 'ü'
  else if c = 'Ñ' then 'ñ' else c.toLower

/-- Model of Python's `str.lower`. -/
def pyLower (s : String) : String :=
  String.mk (s.toList.map pyLowerChar)

/-- Model of Python's `str.strip()` (no argument: strips whitespace). -/
def pyStrip (s : String) : String :=
  String.mk (((s.toList.dropWhile Char.isWhitespace).reverse.dropWhile
    Char.isWhitespace).reverse)

/-- Model of Python's `str.isdigit`: non-empty and all decimal digits. -/
def pyIsdigit (s : String) : Bool :=
  !s.toList.isEmpty && s.toList.all Char.isDigit

/-- Model of Python's `str.isalnum`: non-empty and all alphanumeric. -/
def pyIsalnum (s : String) : Bool :=
  !s.toList.isEmpty && s.toList.all Char.isAlphanum

/-- Digits-and-underscores body of an integer literal, as accepted by
Python's `int()`: non-empty, starts and ends with a digit, single
underscores only between digits. Returns the decimal value. -/
def pyParseIntCore (body : List Char) : Option Nat :=
  let rec go : List Char → Bool → Option Nat → Option Nat
    | [], lastDigit, acc => if lastDigit then acc else none
    | c :: rest, lastDigit, acc =>
      if c.isDigit then
        go rest true (acc.map (fun n => n * 10 + (c.toNat - 48)))
      else if c = '_' then
        if lastDigit then go rest false acc else none
      else none
  match body with
  | [] => none
  | c :: _ => if c.isDigit then go body false (some 0) else none

/-- Model of Python's `int(s)` on a string: surrounding whitespace allowed,
optional sign, decimal digits with optional underscore separators.
`none` models the `ValueError` raised on anything else. -/
def pyParseInt (s : String) : Option Int :=
  let t := (pyStrip s).toList
  match t with
  | '-' :: rest => (pyParseIntCore rest).map (fun n => -(n : Int))
  | '+' :: rest => (pyParseIntCore rest).map (fun n => (n : Int))
  | _ => (pyParseIntCore t).map (fun n => (n : Int))

/-! ## The data model: decoded JSON values -/

/-- A decoded JSON value (the output of `json.loads`): the `RawLog` type.
Numbers are modelled as integers; object keys keep document order. -/
inductive PyVal where
  | str (s : String)
  | int (n : Int)
  | bool (b : Bool)
  | null
  | list (xs : List PyVal)
  | dict (kvs : List (String × PyVal))

instance : Inhabited PyVal := ⟨PyVal.null⟩

/-- Whether the root value is a sequence (Python `isinstance(data, list)`). -/
def PyVal.isList : PyVal → Bool
  | .list _ => true
  | _ => false

/-- The Python exceptions this program can raise or catch. -/
inductive PyErr where
  | valueError
  | indexError
  | keyError
  | typeError
  deriving DecidableEq

instance {ε α : Type} [DecidableEq ε] [DecidableEq α] : DecidableEq (Except ε α)
  | .error e, .error f =>
    if h : e = f then .isTrue (congrArg _ h)
    else .isFalse (fun c => h (Except.error.inj c))
  | .error _, .ok _ => .isFalse (fun c => Except.noConfusion c)
  | .ok _, .error _ => .isFalse (fun c => Except.noConfusion c)
  | .ok a, .ok b =>
    if h : a = b then .isTrue (congrArg _ h)
    else .isFalse (fun c => h (Except.ok.inj c))

/-- Model of Python's `len(v)`: length of strings, lists and dicts;
`TypeError` on numbers, booleans and `None`. -/
def pyLen : PyVal → Except PyErr Nat
  | .str s => .ok s.length
  | .list xs => .ok xs.length
  | .dict kvs => .ok kvs.length
  | _ => .error .typeError

/-- Model of Python's `v[i]` with an integer index `i`: lists and strings
index end-relatively for negative `i` and raise `IndexError` out of range;
dicts raise `KeyError` (JSON object keys are strings, never integers);
scalars raise `TypeError`. -/
def pySubscript : PyVal → Int → Except PyErr PyVal
  | .list xs, i =>
    if 0 ≤ i ∧ i < (xs.length : Int) then .ok (xs.getD i.toNat .null)
    else if -(xs.length : Int) ≤ i ∧ i < 0 then
      .ok (xs.getD ((xs.length : Int) + i).toNat .null)
    else .error .indexError
  | .str s, i =>
    if 0 ≤ i ∧ i < (s.length : Int) then .ok (.str (String.mk [s.toList.getD i.toNat ' ']))
    else if -(s.length : Int) ≤ i ∧ i < 0 then
      .ok (.str (String.mk [s.toList.getD ((s.length : Int) + i).toNat ' ']))
    else .error .indexError
  | .dict _, _ => .error .keyError
  | _, _ => .error .typeError

/-- First binding of a key in a JSON object (keys are unique after
`json.loads`, so this models Python's `obj[key]` / `key in obj`). -/
def pyDictGet (kvs : List (String × PyVal)) (key : String) : Option PyVal :=
  match kvs.find? (fun kv => kv.1 = key) with
  | some kv => some kv.2
  | none => none

mutual

/-- Model of Python's `repr` on decoded JSON values (used via `str()` on
non-string values). -/
def pyRepr : PyVal → String
  | .str s => "\x27" ++ s ++ "\x27"
  | .int n => toString n
  | .bool true => "True"
  | .bool false => "False"
  | .null => "None"
  | .list xs => "[" ++ pyReprList xs ++ "]"
  | .dict kvs => "\x7b" ++ pyReprDict kvs ++ "\x7d"

def pyReprList : List PyVal → String
  | [] => ""
  | [x] => pyRepr x
  | x :: rest => pyRepr x ++ ", " ++ pyReprList rest

def pyReprDict : List (String × PyVal) → String
  | [] => ""
  | [(k, v)] => "\x27" ++ k ++ "\x27: " ++ pyRepr v
  | (k, v) :: rest => "\x27" ++ k ++ "\x27: " ++ pyRepr v ++ ", " ++ pyReprDict rest

end

/-- Model of Python's `str(v)` on decoded JSON values. -/
def pyStr : PyVal → String
  | .str s => s
  | v => pyRepr v

/-! ## NoiseFilter: `is_real_conversation_message` -/

/-- The fixed technical-keyword list of `is_real_conversation_message`. -/
def technical_keywords : List String :=
  ["langchain_core", "OPENAI_API_KEY", "finish_reason", "stop", "generationInfo",
   "HumanMessage", "AIMessage", "SystemMessage", "BaseMessage", "ChatMessage",
   "function_call", "tool_calls", "response_metadata", "usage_metadata",
   "prompt_tokens", "completion_tokens", "total_tokens"]

/-- The system-prompt indicator list of `is_real_conversation_message`. -/
def prompt_indicators : List String :=
  ["You are", "Tu eres", "Eres un", "Your role is", "Tu rol es",
   "Instructions:", "Instrucciones:", "System:", "Sistema:",
   "Context:", "Contexto:", "Guidelines:", "Directrices:",
   "Rules:", "Reglas:", "Please follow", "Por favor sigue",
   "assistant", "asistente", "chatbot", "AI model", "modelo de IA"]

/-- `is_real_conversation_message(text)` from `app.py`: classifies a string
as genuine dialogue vs technical payload. Callers always pass strings, so
the `isinstance(text, str)` guard is vacuous here. -/
def is_real_conversation_message (text : String) : Bool :=
  if (pyStrip text).length < 3 then false
  else if technical_keywords.any (fun kw => strContains text kw) then false
  else if pyStartsWith text "\x7b" && pyEndsWith text "\x7d" then false
  else if pyStartsWith text "http" &&
      (strContains (pyLower text) "api" || strContains (pyLower text) "webhook") then false
  else if text.length > 1000 &&
      prompt_indicators.any (fun ind => strContains text ind) then false
  else if text.length < 50 &&
      (pyIsdigit text || (pyIsalnum text && text.length > 20)) then false
  else true

/-! ## UserInfoExtractor: `extract_user_info` -/

/-- The `{phone_number, user_name}` result of `extract_user_info`, also the
accumulator mutated by the recursive `search_user_info` closure. -/
structure UserInfo where
  phone_number : Option String
  user_name : Option String
  deriving DecidableEq

/-- `is_valid_phone_number` from `app.py`: 7 to 15 decimal digits. -/
def is_valid_phone_number (phone_str : String) : Bool :=
  if !pyIsdigit phone_str then false
  else if 7 ≤ phone_str.length && phone_str.length ≤ 15 then true
  else false

/-- The `try` body of the name branch of `search_user_info`: interpret the
string value as an integer reference into the root, and return the
referenced string when it looks like a real name (length > 3, not purely
numeric). `ValueError` from `int(value)`, and any error from `len(data)` or
`data[name_ref]`, surface as `Except.error`. -/
def name_ref_lookup (root : PyVal) (value : String) : Except PyErr (Option String) :=
  match pyParseInt value with
  | none => .error .valueError
  | some name_ref =>
    match pyLen root with
    | .error e => .error e
    | .ok n =>
      if name_ref < (n : Int) then
        match pySubscript root name_ref with
        | .error e => .error e
        | .ok (.str potential_name) =>
          if potential_name.length > 3 && !pyIsdigit potential_name then
            .ok (some potential_name)
          else .ok none
        | .ok _ => .ok none
      else .ok none

/-- The name branch of `search_user_info` with its
`except (ValueError, IndexError)` handler: on those two errors fall back to
the literal string value; other errors (`KeyError`, `TypeError`) propagate. -/
def name_field_update (root : PyVal) (value : String) (current : Option String) :
    Except PyErr (Option String) :=
  match name_ref_lookup root value with
  | .ok (some nm) => .ok (some nm)
  | .ok none => .ok current
  | .error .valueError =>
    if value.length > 3 && !pyIsdigit value then .ok (some value) else .ok current
  | .error .indexError =>
    if value.length > 3 && !pyIsdigit value then .ok (some value) else .ok current
  | .error e => .error e

/-- The phone branch of `search_user_info` for one dict entry: a string
value under a key containing `"from"` overwrites the phone number when it
validates. -/
def phone_key_step (key : String) (value : PyVal) (st : UserInfo) : UserInfo :=
  match value with
  | .str s =>
    if strContains (pyLower key) "from" && is_valid_phone_number s then
      { st with phone_number := some s }
    else st
  | _ => st

/-- The name branch of `search_user_info` for one dict entry. -/
def name_key_step (root : PyVal) (key : String) (value : PyVal) (st : UserInfo) :
    Except PyErr UserInfo :=
  match value with
  | .str s =>
    if strContains (pyLower key) "name" then
      match name_field_update root s st.user_name with
      | .ok nm => .ok { st with user_name := nm }
      | .error e => .error e
    else .ok st
  | _ => .ok st

mutual

/-- The recursive `search_user_info` closure of `extract_user_info`,
with the mutated outer-scope variables threaded as a `UserInfo` state and
`data` (the root) passed explicitly. A bare string anywhere is taken as the
phone number only if none was recorded yet (`if not phone_number`, which
for a recorded value is exactly `Option.isNone` since the empty string
never validates). -/
def search_user_info (root : PyVal) : PyVal → UserInfo → Except PyErr UserInfo
  | .dict kvs, st => search_user_info_dict root kvs st
  | .list xs, st => search_user_info_list root xs st
  | .str s, st =>
    .ok (if is_valid_phone_number s && st.phone_number.isNone then
      { st with phone_number := some s } else st)
  | _, st => .ok st

def search_user_info_dict (root : PyVal) :
    List (String × PyVal) → UserInfo → Except PyErr UserInfo
  | [], st => .ok st
  | (key, value) :: rest, st =>
    match name_key_step root key value (phone_key_step key value st) with
    | .error e => .error e
    | .ok st2 =>
      match search_user_info root value st2 with
      | .error e => .error e
      | .ok st3 => search_user_info_dict root rest st3

def search_user_info_list (root : PyVal) : List PyVal → UserInfo → Except PyErr UserInfo
  | [], st => .ok st
  | x :: rest, st =>
    match search_user_info root x st with
    | .error e => .error e
    | .ok st2 => search_user_info_list root rest st2

end

/-- `extract_user_info` from `app.py`. -/
def extract_user_info (data : PyVal) : Except PyErr UserInfo :=
  search_user_info data data { phone_number := none, user_name := none }

/-! ## SenderClassifier: `determine_sender` -/

/-- The attributed author of a message. -/
inductive Sender where
  | user
  | bot
  deriving DecidableEq

/-- The `strong_user_patterns` list of `determine_sender`. -/
def strong_user_patterns : List String :=
  ["hola", "hello", "hi", "gracias", "thanks", "ok", "si", "yes", "no",
   "cotiza", "cotizame", "precio", "cuanto", "how much", "quiero", "necesito",
   "dame", "envía", "manda", "por favor"]

/-- The `strong_bot_patterns` list of `determine_sender`. -/
def strong_bot_patterns : List String :=
  ["puedo ayudarte", "can i help", "te recomiendo", "i recommend",
   "contactar", "contact", "especialista", "specialist", "catálogo",
   "información", "information", "whatsapp", "enlace", "link",
   "de nada", "you\x27re welcome", "buen día", "good day",
   "si necesitas", "if you need", "no dudes", "don\x27t hesitate"]

/-- The length-band signal of `determine_sender`, returning the
`(user_score, bot_score)` increments of the `if/elif` chain on
`length = len(content)` — translated branch for branch, including the
final `elif length > 300` branch exactly where the source has it. -/
def length_band_deltas (length : Nat) : Int × Int :=
  if length < 20 then (4, 0)
  else if length < 50 then (2, 0)
  else if length > 150 then (0, 3)
  else if length > 300 then (0, 5)
  else (0, 0)

/-- The positional-proximity rule of `determine_sender`: locate the trimmed
content in the root sequence, scan `range(max(0, pos-20), min(len, pos+20))`
for the literal markers, and decide by strictly-closest marker within
distance 15. `none` means the rule does not fire and scoring takes over. -/
def marker_window_decision (content : String) (data : PyVal) : Option Sender :=
  match data with
  | .list xs =>
    match xs.findIdx? (fun item => match item with
        | .str s => pyStrip s = pyStrip content
        | _ => false) with
    | none => none
    | some content_position =>
      let lo := content_position - 20
      let hi := min xs.length (content_position + 20)
      let window := List.range' lo (hi - lo)
      let human_positions := window.filter (fun k =>
        match xs.getD k .null with | .str s => s = "HumanMessage" | _ => false)
      let ai_positions := window.filter (fun k =>
        match xs.getD k .null with | .str s => s = "AIMessage" | _ => false)
      let closest_human := (human_positions.map (fun k => Nat.dist k content_position)).min?
      let closest_ai := (ai_positions.map (fun k => Nat.dist k content_position)).min?
      match closest_human, closest_ai with
      | some h, some a =>
        if h < a && h ≤ 15 then some .user
        else if a < h && a ≤ 15 then some .bot
        else none
      | some h, none => if h ≤ 15 then some .user else none
      | none, some a => if a ≤ 15 then some .bot else none
      | none, none => none
  | _ => none

/-- The scored heuristic of `determine_sender` (reached only when no
earlier rule fired), translated signal for signal in source order,
including the early `return 'user'` on short quote requests. -/
def scoring_decision (content : String) : Sender :=
  let content_lower := pyLower content
  let length := content.length
  let user_score : Int :=
    strong_user_patterns.foldl (fun sc p => if strContains content_lower p then sc + 3 else sc) 0
  let bot_score : Int :=
    strong_bot_patterns.foldl (fun sc p => if strContains content_lower p then sc + 3 else sc) 0
  let user_score := user_score + (length_band_deltas length).1
  let bot_score := bot_score + (length_band_deltas length).2
  let bot_score := bot_score + (if pyEndsWith content "?" && length > 30 then 4 else 0)
  let user_score := user_score + (if length < 30 && !pyEndsWith content "?" then 3 else 0)
  let bot_score := bot_score +
    (if strContains content_lower "http" || strContains content_lower "wa.me" ||
        strContains content_lower "www." then 8 else 0)
  let sentence_count :=
    content.toList.count '.' + content.toList.count '!' + content.toList.count '?'
  let bot_score := bot_score + (if sentence_count > 1 then 3 else 0)
  let bot_score := bot_score +
    (if ["Sr.", "Sra.", "estimado", "estimada"].any (fun w => strContains content w)
     then 3 else 0)
  let user_score := user_score +
    (if ["😊", "😄", "👍", ":)", ":D", "jaja", "jeje"].any (fun w => strContains content w)
     then 2 else 0)
  let user_score := user_score +
    (if pyStartsWith content_lower "hola" && length < 30 then 6 else 0)
  let bot_score := bot_score +
    (if ["puedo ayudarte", "en qué puedo", "cómo puedo"].any
        (fun p => strContains content_lower p) then 8 else 0)
  if strContains content_lower "cotiza" && length < 100 then Sender.user
  else
    let user_score := user_score +
      (if (["dame", "quiero", "necesito"].any (fun w => strContains content_lower w)) &&
          length < 100 then 5 else 0)
    if bot_score > user_score then Sender.bot else Sender.user

/-- `determine_sender(content, path, data)` from `app.py`: the ordered
cascade of exact known utterances, known bot phrases, the quote-request
rule, positional proximity, and finally the scored heuristic. The `path`
argument is kept for signature fidelity; the source only lower-cases it
into an unused local. -/
def determine_sender (content : String) (path : String) (data : PyVal) : Sender :=
  let content_clean := pyLower (pyStrip content)
  let _path_lower := pyLower path
  if content_clean = "hola 1356" then .user
  else if content_clean = "cotizame 1 ciento de llaves" then .user
  else if content_clean = "ok gracias" then .user
  else if strContains content_clean "¿en qué puedo ayudarte" then .bot
  else if strContains content_clean "te recomiendo contactar" then .bot
  else if strContains content_clean "de nada! si necesitas" then .bot
  else if strContains content_clean "cotiza" && content.length < 100 then .user
  else
    match marker_window_decision content data with
    | some s => s
    | none => scoring_decision content

/-! ## ContentExtractor: `extract_conversation_from_data` -/

/-- One `{content, path, ref}` entry collected by `find_content_references`. -/
structure ContentRef where
  content : String
  path : String
  ref : Option Int
  deriving DecidableEq

/-- An extracted `{sender, text}` message. -/
structure ChatMsg where
  sender : Sender
  text : String
  deriving DecidableEq

/-- The `"content"`-key handling of `find_content_references` for one dict:
parse the string under `"content"` as an integer; inside the root bound,
resolve `data[content_ref]` (where a negative in-bound index resolves
end-relatively and a below-bound one raises the caught `IndexError`,
falling back to the literal); a `ValueError` from `int()` also falls back
to the literal; a parsed reference at or above the root length fails the
`content_ref < len(data)` guard and contributes nothing. -/
def content_candidates (root : List PyVal) (kvs : List (String × PyVal))
    (path : String) : List ContentRef :=
  match pyDictGet kvs "content" with
  | some (.str s) =>
    match pyParseInt s with
    | some content_ref =>
      if content_ref < (root.length : Int) then
        match pySubscript (.list root) content_ref with
        | .ok (.str actual_content) =>
          if is_real_conversation_message actual_content then
            [{ content := actual_content, path := path, ref := some content_ref }]
          else []
        | .ok _ => []
        | .error _ =>
          if is_real_conversation_message s then
            [{ content := s, path := path, ref := none }]
          else []
      else []
    | none =>
      if is_real_conversation_message s then
        [{ content := s, path := path, ref := none }]
      else []
  | _ => []

mutual

/-- The recursive `find_content_references` closure of
`extract_conversation_from_data`: collect content candidates from every
dict in traversal order, then recurse into values and elements, building
the textual path exactly as the source does. -/
def find_content_references (root : List PyVal) : PyVal → String → List ContentRef
  | .dict kvs, path => content_candidates root kvs path ++ find_content_references_dict root kvs path
  | .list xs, path => find_content_references_list root xs path 0
  | _, _ => []

def find_content_references_dict (root : List PyVal) :
    List (String × PyVal) → String → List ContentRef
  | [], _ => []
  | (key, value) :: rest, path =>
    find_content_references root value (if path = "" then key else path ++ "." ++ key) ++
    find_content_references_dict root rest path

def find_content_references_list (root : List PyVal) :
    List PyVal → String → Nat → List ContentRef
  | [], _, _ => []
  | x :: rest, path, i =>
    find_content_references root x
      (if path = "" then "[" ++ toString i ++ "]" else path ++ "[" ++ toString i ++ "]") ++
    find_content_references_list root rest path (i + 1)

end

/-- The dedup loop of `extract_conversation_from_data`: keep the first
occurrence of each exact content string, threading the `seen_contents` set. -/
def dedup_by_content : List ContentRef → List String → List ContentRef
  | [], _ => []
  | m :: rest, seen =>
    if seen.contains m.content then dedup_by_content rest seen
    else m :: dedup_by_content rest (m.content :: seen)

/-- The conversational-intent check of `extract_conversation_from_data`:
some top-level element is the literal string `"HumanMessage"` or
`"AIMessage"`. -/
def has_conversation_marker (xs : List PyVal) : Bool :=
  xs.any (fun item => match item with
    | .str s => s = "HumanMessage" || s = "AIMessage"
    | _ => false)

mutual

/-- The Phase-2 positional marker scan of `extract_conversation_from_data`
(the `while i < len(data)` loop): a marker followed by a payload element
attributes the payload and skips two slots; a marker in last position (the
`i + 1 < len(data)` guard fails) and any other string take the one-slot
literal branch; every accepted string passes the noise filter and the
`seen_texts` dedup. -/
def langchain_marker_scan : List PyVal → List String → List ChatMsg
  | [], _ => []
  | .str item :: rest, seen =>
    if item = "HumanMessage" then scan_marker_payload .user item rest seen
    else if item = "AIMessage" then scan_marker_payload .bot item rest seen
    else
      if is_real_conversation_message item && !seen.contains item then
        { sender := if item.length < 100 then .user else .bot, text := item } ::
          langchain_marker_scan rest (item :: seen)
      else langchain_marker_scan rest seen
  | _ :: rest, seen => langchain_marker_scan rest seen

/-- The payload step after a recognised marker: with a following element,
`str()` it, filter, dedup, attribute it to `sdr` and skip both slots; with
none, the source falls into the literal branch on the marker string itself
(which the keyword filter always rejects). -/
def scan_marker_payload (sdr : Sender) (item : String) :
    List PyVal → List String → List ChatMsg
  | [], seen =>
    if is_real_conversation_message item && !seen.contains item then
      [{ sender := if item.length < 100 then .user else .bot, text := item }]
    else []
  | next :: rest2, seen =>
    let payload_text := pyStr next
    if is_real_conversation_message payload_text && !seen.contains payload_text then
      { sender := sdr, text := payload_text } ::
        langchain_marker_scan rest2 (payload_text :: seen)
    else langchain_marker_scan rest2 seen

end

/-- `extract_conversation_from_data` from `app.py`: non-sequence roots give
the empty list at once; a sequence without conversation markers
short-circuits to the empty list; otherwise Phase 1 (structured content
references, deduplicated, sender-classified) and, only if Phase 1 yields
nothing, Phase 2 (the positional marker scan). -/
def extract_conversation_from_data : PyVal → List ChatMsg
  | .list xs =>
    if !has_conversation_marker xs then []
    else
      let content_messages := find_content_references xs (.list xs) ""
      let unique_messages := dedup_by_content content_messages []
      let messages := unique_messages.map (fun m =>
        { sender := determine_sender m.content m.path (.list xs), text := m.content })
      if messages.isEmpty then langchain_marker_scan xs [] else messages
  | _ => []

/-! ## TimestampExtractor: `extract_timestamps_from_data` -/

/-- Greedily consume up to `maxR` leading digits, returning the value, how
many digits were taken, and the remainder. -/
def takeDigitsAux : Nat → Nat → Nat → List Char → Nat × Nat × List Char
  | 0, acc, k, rest => (acc, k, rest)
  | _ + 1, acc, k, [] => (acc, k, [])
  | maxR + 1, acc, k, c :: rest =>
    if c.isDigit then takeDigitsAux maxR (acc * 10 + (c.toNat - 48)) (k + 1) rest
    else (acc, k, c :: rest)

/-- At least one and at most `maxN` leading digits, as `strptime`'s
one-or-two-digit numeric directives (`%m`, `%d`, `%H`, `%M`, `%S`) match
them; their range restrictions are checked by the `datetime` validation
afterwards, which rejects exactly the same strings. -/
def takeDigits (maxN : Nat) (l : List Char) : Option (Nat × List Char) :=
  match takeDigitsAux maxN 0 0 l with
  | (_, 0, _) => none
  | (v, _ + 1, rest) => some (v, rest)

/-- Exactly `n` leading digits: `strptime`'s `%Y` directive is the pattern
of four digit characters, so unpadded years (fewer than four digits) fail
the format. -/
def takeDigitsExact (n : Nat) (l : List Char) : Option (Nat × List Char) :=
  match takeDigitsAux n 0 0 l with
  | (v, k, rest) => if k = n then some (v, rest) else none

/-- Consume one expected literal character. -/
def expectChar (c : Char) : List Char → Option (List Char)
  | d :: rest => if d = c then some rest else none
  | [] => none

/-- Gregorian leap year. -/
def is_leap_year (y : Nat) : Bool :=
  y % 4 = 0 && (y % 100 ≠ 0 || y % 400 = 0)

/-- Days in a month, as `datetime` validates them. -/
def days_in_month (y m : Nat) : Nat :=
  if m = 2 then (if is_leap_year y then 29 else 28)
  else if m = 4 || m = 6 || m = 9 || m = 11 then 30
  else 31

/-- The date ranges `datetime(year, month, day)` accepts. -/
def valid_date (y m d : Nat) : Bool :=
  1 ≤ y && y ≤ 9999 && 1 ≤ m && m ≤ 12 && 1 ≤ d && d ≤ days_in_month y m

/-- The time-of-day ranges `datetime` accepts. -/
def valid_time (h mi s : Nat) : Bool :=
  h ≤ 23 && mi ≤ 59 && s ≤ 59

/-- Days between a proleptic-Gregorian civil date and 1970-01-01. -/
def days_from_civil (y m d : Int) : Int :=
  let y2 := if m ≤ 2 then y - 1 else y
  let era := (if 0 ≤ y2 then y2 else y2 - 399) / 400
  let yoe := y2 - era * 400
  let mp := (m + 9) % 12
  let doy := (153 * mp + 2) / 5 + d - 1
  let doe := yoe * 365 + yoe / 4 - yoe / 100 + doy
  era * 146097 + doe - 719468

/-- A civil datetime as epoch milliseconds (timezone idealised to UTC). -/
def datetime_ms (y m d h mi s : Nat) : Int :=
  days_from_civil y m d * 86400000 + ((h * 3600 + mi * 60 + s : Nat) : Int) * 1000

/-- Parse `YYYY-MM-DD` (the `%Y-%m-%d` part of the format list); the year
takes exactly four digits, as `strptime`'s `%Y` requires. -/
def parse_date_ymd (l : List Char) : Option ((Nat × Nat × Nat) × List Char) := do
  let (y, r1) ← takeDigitsExact 4 l
  let r2 ← expectChar '-' r1
  let (m, r3) ← takeDigits 2 r2
  let r4 ← expectChar '-' r3
  let (d, r5) ← takeDigits 2 r4
  pure ((y, m, d), r5)

/-- Parse `DD/MM/YYYY` (the `%d/%m/%Y` part of the format list); the year
takes exactly four digits, as `strptime`'s `%Y` requires. -/
def parse_date_dmy (l : List Char) : Option ((Nat × Nat × Nat) × List Char) := do
  let (d, r1) ← takeDigits 2 l
  let r2 ← expectChar '/' r1
  let (m, r3) ← takeDigits 2 r2
  let r4 ← expectChar '/' r3
  let (y, r5) ← takeDigitsExact 4 r4
  pure ((y, m, d), r5)

/-- Parse `HH:MM:SS` (the `%H:%M:%S` part of the format list). -/
def parse_time_hms (l : List Char) : Option ((Nat × Nat × Nat) × List Char) := do
  let (h, r1) ← takeDigits 2 l
  let r2 ← expectChar ':' r1
  let (mi, r3) ← takeDigits 2 r2
  let r4 ← expectChar ':' r3
  let (s, r5) ← takeDigits 2 r4
  pure ((h, mi, s), r5)

/-- One date-plus-time format: date part, a literal separator, a time part,
full consumption, and `datetime` validation. -/
def parse_datetime_format
    (dateP : List Char → Option ((Nat × Nat × Nat) × List Char)) (sep : Char)
    (s : String) : Option Int := do
  let ((y, m, d), r1) ← dateP s.toList
  let r2 ← expectChar sep r1
  let ((h, mi, sec), r3) ← parse_time_hms r2
  if r3.isEmpty && valid_date y m d && valid_time h mi sec then
    pure (datetime_ms y m d h mi sec)
  else none

/-- One date-only format: date part, full consumption, validation. -/
def parse_date_format
    (dateP : List Char → Option ((Nat × Nat × Nat) × List Char))
    (s : String) : Option Int := do
  let ((y, m, d), r1) ← dateP s.toList
  if r1.isEmpty && valid_date y m d then pure (datetime_ms y m d 0 0 0) else none

/-- The ordered `strptime` format cascade of `search_for_timestamps`:
`%Y-%m-%d %H:%M:%S`, `%Y-%m-%dT%H:%M:%S`, `%d/%m/%Y %H:%M:%S`, `%Y-%m-%d`,
`%d/%m/%Y`; the first successful parse wins and failures (including
`datetime` range validation) try the next format. -/
def parse_timestamp_string (s : String) : Option Int :=
  (parse_datetime_format parse_date_ymd ' ' s) <|>
  (parse_datetime_format parse_date_ymd 'T' s) <|>
  (parse_datetime_format parse_date_dmy ' ' s) <|>
  (parse_date_format parse_date_ymd s) <|>
  (parse_date_format parse_date_dmy s)

/-- The numeric branch of `search_for_timestamps`: above `10^12` the value
is epoch milliseconds (`fromtimestamp(value / 1000)`), above `10^9` epoch
seconds, otherwise ignored. Values past `datetime`'s year-9999 range but
within the platform `time_t` make `fromtimestamp` raise `ValueError`,
which the walk swallows — they contribute nothing. Beyond `time_t`, the
program instead raises an uncaught `OverflowError`
(`timestamp_number_overflows` captures that zone; theorems about the walk
on numeric inputs exclude it by hypothesis). -/
def timestamp_of_number (value : Int) : Option Int :=
  if value > 1000000000000 then
    if value ≤ 253402300799999 then some value else none
  else if value > 1000000000 then
    if value ≤ 253402300799 then some (value * 1000) else none
  else none

/-- Interpreting one time-keyed field value, as `search_for_timestamps`
does: numbers through the epoch heuristic, strings through the format
cascade, anything else ignored. -/
def timestamp_of_value : PyVal → Option Int
  | .int v => timestamp_of_number v
  | .str s => parse_timestamp_string s
  | _ => none

/-- The key substrings that make `search_for_timestamps` try a field. -/
def time_key_names : List String :=
  ["time", "date", "created", "timestamp", "at"]

/-- Whether a dict key looks time-related. -/
def is_time_key (key : String) : Bool :=
  time_key_names.any (fun t => strContains (pyLower key) t)

mutual

/-- The recursive `search_for_timestamps` closure of
`extract_timestamps_from_data`: every time-keyed dict value is interpreted
as a timestamp (failures contribute nothing), then traversal continues
into the value; list elements are traversed in order. -/
def search_for_timestamps : PyVal → List Int
  | .dict kvs => search_for_timestamps_dict kvs
  | .list xs => search_for_timestamps_list xs
  | _ => []

def search_for_timestamps_dict : List (String × PyVal) → List Int
  | [] => []
  | (key, value) :: rest =>
    (if is_time_key key then (timestamp_of_value value).toList else []) ++
    search_for_timestamps value ++ search_for_timestamps_dict rest

def search_for_timestamps_list : List PyVal → List Int
  | [] => []
  | x :: rest => search_for_timestamps x ++ search_for_timestamps_list rest

end

/-- The numeric time-keyed values on which the program crashes instead of
walking on: for `value / 1000` past the 64-bit `time_t` range (the float
rounding at the exact boundary is idealised), `fromtimestamp` raises
`OverflowError`, which `except (ValueError, OSError)` does not catch.
Only the milliseconds branch divides, so values at or below `10^12` can
never reach this zone. -/
def timestamp_number_overflows (value : Int) : Bool :=
  value > 1000000000000 && 9223372036854775808000 ≤ value

mutual

/-- Mirror of the `search_for_timestamps` traversal deciding whether the
program's walk would raise the uncaught `OverflowError` somewhere: true
iff some time-keyed numeric field lies in `timestamp_number_overflows`. -/
def search_for_timestamps_raises : PyVal → Bool
  | .dict kvs => search_for_timestamps_raises_dict kvs
  | .list xs => search_for_timestamps_raises_list xs
  | _ => false

def search_for_timestamps_raises_dict : List (String × PyVal) → Bool
  | [] => false
  | (key, value) :: rest =>
    (if is_time_key key then
      (match value with
       | .int v => timestamp_number_overflows v
       | _ => false)
     else false) ||
    search_for_timestamps_raises value || search_for_timestamps_raises_dict rest

def search_for_timestamps_raises_list : List PyVal → Bool
  | [] => false
  | x :: rest =>
    search_for_timestamps_raises x || search_for_timestamps_raises_list rest

end

/-- Stable insertion of one element into a key-sorted list: the new element
goes before the first element with a key not below it, so earlier elements
keep priority on ties. -/
def insert_by_key {α : Type} (key : α → Int) (a : α) : List α → List α
  | [] => [a]
  | b :: l => if key a ≤ key b then a :: b :: l else b :: insert_by_key key a l

/-- Stable sort by an integer key. Python's `list.sort` is a stable sort,
and a stable sort's output is uniquely determined by the key order and the
input order, so this models it exactly. -/
def sort_by_key {α : Type} (key : α → Int) : List α → List α
  | [] => []
  | a :: l => insert_by_key key a (sort_by_key key l)

/-- `extract_timestamps_from_data` from `app.py`: the recursive walk, then
the synthetic fallback sequence (ten instants from one hour before now,
two minutes apart) when the walk found nothing, then an ascending sort. -/
def extract_timestamps_from_data (data : PyVal) (now : Int) : List Int :=
  let timestamps := search_for_timestamps data
  let timestamps :=
    if timestamps.isEmpty then
      (List.range 10).map (fun i => (now - 3600000) + 120000 * (i : Int))
    else timestamps
  sort_by_key id timestamps

/-! ## ConversationAssembler: `extract_chat_messages` -/

/-- A fully assembled conversation message. -/
structure TimedMessage where
  sender : Sender
  text : String
  timestamp : Int
  deriving DecidableEq

/-- The `ConversationRecord` returned by `extract_chat_messages` (the
`status` key is only present on the no-conversation record). -/
structure ChatRecord where
  id : String
  created : Int
  updated : Int
  messages : List TimedMessage
  no_conversation : Bool
  status : Option String
  user_info : UserInfo
  deriving DecidableEq

/-- The timestamp-assignment loop of `extract_chat_messages`: message `i`
takes the `i`-th recovered timestamp when available, else the computed
fallback `now` minus `total - i` minutes. -/
def assign_timestamps (total : Nat) (timestamps : List Int) (now : Int) :
    List ChatMsg → Nat → List TimedMessage
  | [], _ => []
  | msg :: rest, i =>
    { sender := msg.sender, text := msg.text,
      timestamp :=
        if i < timestamps.length then timestamps.getD i 0
        else now - 60000 * ((total : Int) - (i : Int)) } ::
    assign_timestamps total timestamps now rest (i + 1)

/-- `extract_chat_messages(execution_data, chat_id)` from `app.py`, the
reconstruction entry point: user info, then conversation extraction with
the no-conversation short-circuit, then timestamp recovery, assignment,
the stable sort by timestamp, and `created` from the first sorted message.
Every call of `datetime.now()` is modelled by the parameter `now`. -/
def extract_chat_messages (execution_data : PyVal) (chat_id : String) (now : Int) :
    Except PyErr ChatRecord :=
  match extract_user_info execution_data with
  | .error e => .error e
  | .ok user_info =>
    let conversation_messages := extract_conversation_from_data execution_data
    if conversation_messages.isEmpty then
      .ok { id := chat_id, created := now, updated := now, messages := [],
            no_conversation := true, status := some "Registro sin conversación",
            user_info := user_info }
    else
      let timestamps := extract_timestamps_from_data execution_data now
      let messages := sort_by_key (fun m => m.timestamp)
        (assign_timestamps conversation_messages.length timestamps now
          conversation_messages 0)
      .ok { id := chat_id,
            created := match messages with | m :: _ => m.timestamp | [] => now,
            updated := now, messages := messages,
            no_conversation := false, status := none, user_info := user_info }

/-! ## Claims about the engine -/

/-- C1: the specification states the reconstruction entry point returns a
record and never raises for any decodable input; but on the object root
`{"name": "0"}` the name-reference branch of `search_user_info` evaluates
`data[0]` on a dict, raising a `KeyError` that the
`except (ValueError, IndexError)` handler does not catch, so
`extract_chat_messages` raises instead of returning a record. -/
theorem extract_chat_messages_keyerror_on_dict_root :
    extract_chat_messages (.dict [("name", .str "0")]) "chat-1" 0 =
      .error .keyError := by
  rfl

/-- C2 counterexample: with root sequence of length 3 and content
`"+9999999"`, the literal passes the noise filter, yet extraction does not
accept it — the parsed out-of-range reference is silently dropped (the
output is exactly the Phase-2 message `"hola"`), contradicting the claim
that the value falls through to literal interpretation. -/
theorem out_of_range_reference_not_interpreted_literally :
    is_real_conversation_message "+9999999" = true ∧
    extract_conversation_from_data
      (.list [.str "HumanMessage", .str "hola", .dict [("content", .str "+9999999")]]) =
      [{ sender := .user, text := "hola" }] ∧
    ∀ m ∈ extract_conversation_from_data
      (.list [.str "HumanMessage", .str "hola", .dict [("content", .str "+9999999")]]),
      m.text ≠ "+9999999" := by
  refine ⟨by decide, by decide, by decide⟩

/-- C2 amended: in Phase-1 content extraction, a content string that parses
as an integer at or above the root length fails the `content_ref < len(data)`
guard inside the `try` block, so no exception is raised and the literal
fallback (which only an `int()` `ValueError` or an indexing `IndexError`
reaches) never runs: the object contributes no message candidate at all. -/
theorem out_of_range_above_reference_dropped
    (root : List PyVal) (kvs : List (String × PyVal)) (s path : String) (c : Int)
    (hget : pyDictGet kvs "content" = some (.str s))
    (hparse : pyParseInt s = some c)
    (hge : (root.length : Int) ≤ c) :
    content_candidates root kvs path = [] := by
  simp only [content_candidates, hget, hparse]
  rw [if_neg (by omega)]

/-- C2 amended, witness at the claim's own example. -/
theorem out_of_range_above_reference_dropped_witness :
    content_candidates [.str "HumanMessage", .str "hola", .str "x"]
      [("content", PyVal.str "+9999999")] "p" = [] :=
  out_of_range_above_reference_dropped
    [.str "HumanMessage", .str "hola", .str "x"]
    [("content", PyVal.str "+9999999")] "+9999999" "p" 9999999
    rfl (by decide) (by decide)

/-- C3 counterexample: the claim says lengths 150–299 add +3 to the bot
score and lengths ≥ 300 add +5; in the code `elif length > 150` fires
first for every length above 150, so at length 300 the band adds +3 (not
+5) and at length exactly 150 it adds nothing (not +3). -/
theorem length_band_at_300_and_150 :
    length_band_deltas 300 = (0, 3) ∧
    length_band_deltas 300 ≠ (0, 5) ∧
    length_band_deltas 150 = (0, 0) := by
  decide

/-- C3 amended: the length-band signal of the scored heuristic contributes
exactly one of +4 user (length < 20), +2 user (20–49), nothing (50–150),
and +3 bot (length ≥ 151); the `elif length > 300` +5 branch is dead code
behind `elif length > 150`, and the first-matching chain never feeds both
sides. -/
theorem length_band_characterisation (len : Nat) :
    (len < 20 → length_band_deltas len = (4, 0)) ∧
    (20 ≤ len ∧ len < 50 → length_band_deltas len = (2, 0)) ∧
    (50 ≤ len ∧ len ≤ 150 → length_band_deltas len = (0, 0)) ∧
    (150 < len → length_band_deltas len = (0, 3)) ∧
    ((length_band_deltas len).1 = 0 ∨ (length_band_deltas len).2 = 0) := by
  unfold length_band_deltas
  refine ⟨fun h => by rw [if_pos h], fun h => ?_, fun h => ?_, fun h => ?_, ?_⟩
  · rw [if_neg (by omega), if_pos (by omega)]
  · rw [if_neg (by omega), if_neg (by omega), if_neg (by omega), if_neg (by omega)]
  · rw [if_neg (by omega), if_neg (by omega), if_pos (by omega)]
  · split_ifs <;> simp

/-- C3 amended, witness at lengths 10 and 300. -/
theorem length_band_characterisation_witness :
    length_band_deltas 10 = (4, 0) ∧ length_band_deltas 300 = (0, 3) :=
  ⟨(length_band_characterisation 10).1 (by decide),
   (length_band_characterisation 300).2.2.2.1 (by decide)⟩

/-- C4: on the root sequence `["HumanMessage", "hola", {"content": "1"}]`
Phase 1 resolves the reference `"1"` to `"hola"` and produces exactly one
message, attributed `user` by the positional-proximity rule (the
`"HumanMessage"` marker sits at index distance 1). -/
theorem reference_resolution_example :
    extract_conversation_from_data
      (.list [.str "HumanMessage", .str "hola", .dict [("content", .str "1")]]) =
      [{ sender := .user, text := "hola" }] ∧
    marker_window_decision "hola"
      (.list [.str "HumanMessage", .str "hola", .dict [("content", .str "1")]]) =
      some .user := by
  refine ⟨by decide, by decide⟩

/-- C10: a content string parsing as a negative integer `c` with
`-n ≤ c ≤ -1` (where `n` is the root length) is resolved end-relatively:
`data[c]` is the root element at index `n + c`, accepted exactly when it is
a string passing the noise filter — not treated as a literal and not
dropped. -/
theorem negative_reference_resolved_end_relatively
    (root : List PyVal) (kvs : List (String × PyVal)) (s path : String) (c : Int)
    (hget : pyDictGet kvs "content" = some (.str s))
    (hparse : pyParseInt s = some c)
    (hlo : -(root.length : Int) ≤ c) (hhi : c ≤ -1) :
    content_candidates root kvs path =
      (match root.getD ((root.length : Int) + c).toNat PyVal.null with
       | .str t =>
         if is_real_conversation_message t then
           [{ content := t, path := path, ref := some c }]
         else []
       | _ => []) := by
  have hsub : pySubscript (.list root) c =
      .ok (root.getD ((root.length : Int) + c).toNat .null) := by
    simp only [pySubscript]
    rw [if_neg (by omega : ¬(0 ≤ c ∧ c < (root.length : Int))),
      if_pos (⟨hlo, by omega⟩ : -(root.length : Int) ≤ c ∧ c < 0)]
  simp only [content_candidates, hget, hparse, hsub]
  rw [if_pos (by omega : c < (root.length : Int))]
  cases hval : root.getD ((root.length : Int) + c).toNat PyVal.null <;> rfl

/-- C10 witness: `content: "-1"` in a root of length 2 resolves to the
last root element. -/
theorem negative_reference_resolved_end_relatively_witness :
    content_candidates [.str "HumanMessage", .str "hola mundo bonito"]
      [("content", PyVal.str "-1")] "p" =
      [{ content := "hola mundo bonito", path := "p", ref := some (-1) }] := by
  have h := negative_reference_resolved_end_relatively
    [.str "HumanMessage", .str "hola mundo bonito"]
    [("content", PyVal.str "-1")] "-1" "p" (-1)
    rfl (by decide) (by decide) (by decide)
  rw [h]
  decide

/-- C9: a root that is not a sequence makes `extract_conversation_from_data`
return the empty list at once (neither phase runs), and any record the
entry point returns for it has no messages and is flagged as having no
conversation. -/
theorem non_sequence_root_no_messages (v : PyVal) (chat_id : String) (now : Int)
    (h : v.isList = false) :
    extract_conversation_from_data v = [] ∧
    ∀ r : ChatRecord, extract_chat_messages v chat_id now = .ok r →
      r.messages = [] ∧ r.no_conversation = true := by
  have hconv : extract_conversation_from_data v = [] := by
    cases v <;> first | rfl | simp [PyVal.isList] at h
  refine ⟨hconv, fun r hr => ?_⟩
  unfold extract_chat_messages at hr
  cases hui : extract_user_info v with
  | error e => rw [hui] at hr; cases hr
  | ok ui =>
    rw [hui] at hr
    simp only [hconv, List.isEmpty_nil, if_true] at hr
    have := Except.ok.inj hr
    rw [← this]
    exact ⟨rfl, rfl⟩

/-- C9 witness: an object root whose tree has a `content` key with a string
passing the noise filter still yields no messages. -/
theorem non_sequence_root_no_messages_witness :
    (PyVal.dict [("content", PyVal.str "hola, un mensaje real")]).isList = false ∧
    is_real_conversation_message "hola, un mensaje real" = true ∧
    extract_conversation_from_data
      (PyVal.dict [("content", PyVal.str "hola, un mensaje real")]) = [] ∧
    ({ id := "c", created := 0, updated := 0, messages := [],
       no_conversation := true, status := some "Registro sin conversación",
       user_info := { phone_number := none, user_name := none } } : ChatRecord).messages = [] := by
  refine ⟨rfl, by decide, ?_, ?_⟩
  · exact (non_sequence_root_no_messages
      (PyVal.dict [("content", PyVal.str "hola, un mensaje real")]) "c" 0 rfl).1
  · exact ((non_sequence_root_no_messages
      (PyVal.dict [("content", PyVal.str "hola, un mensaje real")]) "c" 0 rfl).2 _ rfl).1

/-- Subscripting a list value either succeeds or raises `IndexError` —
never `KeyError` or `TypeError`. -/
theorem pySubscript_list_ok_or_indexerror (xs : List PyVal) (i : Int) :
    (∃ v, pySubscript (.list xs) i = .ok v) ∨
    pySubscript (.list xs) i = .error .indexError := by
  simp only [pySubscript]
  split_ifs <;> simp

/-- Over a sequence root, the name-reference `try` body can only succeed or
raise the two caught exceptions. -/
theorem name_ref_lookup_list_no_uncaught (xs : List PyVal) (value : String) :
    (∃ r, name_ref_lookup (.list xs) value = .ok r) ∨
    name_ref_lookup (.list xs) value = .error .valueError ∨
    name_ref_lookup (.list xs) value = .error .indexError := by
  unfold name_ref_lookup
  cases hp : pyParseInt value with
  | none => right; left; rfl
  | some c =>
    simp only [pyLen]
    split_ifs with hc
    · rcases pySubscript_list_ok_or_indexerror xs c with ⟨v, hv⟩ | hv
      · rw [hv]
        cases v <;> simp only [] <;>
          first
          | exact Or.inl ⟨_, rfl⟩
          | (split_ifs <;> exact Or.inl ⟨_, rfl⟩)
      · rw [hv]; right; right; rfl
    · exact Or.inl ⟨_, rfl⟩

/-- Over a sequence root, the name branch with its handler never propagates
an error. -/
theorem name_field_update_list_ok (xs : List PyVal) (value : String)
    (cur : Option String) :
    ∃ nm, name_field_update (.list xs) value cur = .ok nm := by
  unfold name_field_update
  rcases name_ref_lookup_list_no_uncaught xs value with ⟨r, hv⟩ | hv | hv <;> rw [hv]
  · cases r <;> exact ⟨_, rfl⟩
  · split_ifs <;> exact ⟨_, rfl⟩
  · split_ifs <;> exact ⟨_, rfl⟩

/-- Over a sequence root, one dict entry of the user-info walk never
propagates an error. -/
theorem name_key_step_list_ok (xs : List PyVal) (key : String) (value : PyVal)
    (st : UserInfo) :
    ∃ st2, name_key_step (.list xs) key value st = .ok st2 := by
  unfold name_key_step
  cases value <;> try exact ⟨_, rfl⟩
  case str s =>
    simp only []
    split_ifs with hn
    · obtain ⟨nm, hnm⟩ := name_field_update_list_ok xs s st.user_name
      rw [hnm]
      exact ⟨_, rfl⟩
    · exact ⟨_, rfl⟩

mutual

/-- Over a sequence root, `search_user_info` always succeeds: the only
uncaught exception path needs a dict root. -/
theorem search_user_info_list_root_ok (xs : List PyVal) :
    ∀ (v : PyVal) (st : UserInfo), ∃ st2, search_user_info (.list xs) v st = .ok st2
  | .dict kvs, st => search_user_info_dict_list_root_ok xs kvs st
  | .list l, st => search_user_info_list_list_root_ok xs l st
  | .str _, _st => ⟨_, rfl⟩
  | .int _, _st => ⟨_, rfl⟩
  | .bool _, _st => ⟨_, rfl⟩
  | .null, _st => ⟨_, rfl⟩

theorem search_user_info_dict_list_root_ok (xs : List PyVal) :
    ∀ (kvs : List (String × PyVal)) (st : UserInfo),
      ∃ st2, search_user_info_dict (.list xs) kvs st = .ok st2
  | [], st => ⟨st, rfl⟩
  | (key, value) :: rest, st => by
    obtain ⟨st2, h2⟩ := name_key_step_list_ok xs key value (phone_key_step key value st)
    obtain ⟨st3, h3⟩ := search_user_info_list_root_ok xs value st2
    obtain ⟨st4, h4⟩ := search_user_info_dict_list_root_ok xs rest st3
    exact ⟨st4, by simp only [search_user_info_dict, h2, h3]; exact h4⟩

theorem search_user_info_list_list_root_ok (xs : List PyVal) :
    ∀ (l : List PyVal) (st : UserInfo),
      ∃ st2, search_user_info_list (.list xs) l st = .ok st2
  | [], st => ⟨st, rfl⟩
  | x :: rest, st => by
    obtain ⟨st2, h2⟩ := search_user_info_list_root_ok xs x st
    obtain ⟨st3, h3⟩ := search_user_info_list_list_root_ok xs rest st2
    exact ⟨st3, by simp only [search_user_info_list, h2]; exact h3⟩

end

/-- C5: a root sequence with neither `"HumanMessage"` nor `"AIMessage"` as
a top-level element always reconstructs to a record with an empty message
list, flagged as having no conversation, whatever else the structure
holds. -/
theorem no_marker_short_circuit (xs : List PyVal) (chat_id : String) (now : Int)
    (h : has_conversation_marker xs = false) :
    ∃ r : ChatRecord, extract_chat_messages (.list xs) chat_id now = .ok r ∧
      r.messages = [] ∧ r.no_conversation = true := by
  obtain ⟨ui, hui⟩ :=
    search_user_info_list_root_ok xs (.list xs) { phone_number := none, user_name := none }
  have hconv : extract_conversation_from_data (.list xs) = [] := by
    simp [extract_conversation_from_data, h]
  refine ⟨{ id := chat_id, created := now, updated := now, messages := [],
            no_conversation := true, status := some "Registro sin conversación",
            user_info := ui }, ?_, rfl, rfl⟩
  simp only [extract_chat_messages, extract_user_info]
  rw [hui]
  simp only [hconv, List.isEmpty_nil, if_true]

/-- C5 witness: a marker-free sequence with content- and name-like entries
still comes back empty and unflagged. -/
theorem no_marker_short_circuit_witness :
    has_conversation_marker
      [.str "hola", .int 5, .dict [("content", .str "hola de nuevo")]] = false ∧
    ∃ r : ChatRecord,
      extract_chat_messages
        (.list [.str "hola", .int 5, .dict [("content", .str "hola de nuevo")]])
        "c" 0 = .ok r ∧
      r.messages = [] ∧ r.no_conversation = true :=
  ⟨rfl, no_marker_short_circuit
    [.str "hola", .int 5, .dict [("content", .str "hola de nuevo")]] "c" 0 rfl⟩

/-- A string the noise filter accepts contains no technical keyword — the
keyword test is the filter's second rejection clause. -/
theorem is_real_no_keyword (t : String)
    (h : is_real_conversation_message t = true) :
    ∀ kw ∈ technical_keywords, strContains t kw = false := by
  intro kw hkw
  by_contra hne
  have hc : strContains t kw = true := by
    cases hcc : strContains t kw
    · exact absurd hcc hne
    · rfl
  have hany : technical_keywords.any (fun k => strContains t k) = true :=
    List.any_eq_true.mpr ⟨kw, hkw, hc⟩
  unfold is_real_conversation_message at h
  split_ifs at h <;> simp_all

/-- Every Phase-1 candidate a single dict contributes has passed the noise
filter. -/
theorem content_candidates_real (root : List PyVal) (kvs : List (String × PyVal))
    (path : String) :
    ∀ m ∈ content_candidates root kvs path,
      is_real_conversation_message m.content = true := by
  intro m hm
  unfold content_candidates at hm
  repeat split at hm
  all_goals simp_all

mutual

/-- Every entry the Phase-1 walk collects has passed the noise filter. -/
theorem find_content_references_real (root : List PyVal) :
    ∀ (v : PyVal) (path : String) (m : ContentRef),
      m ∈ find_content_references root v path →
      is_real_conversation_message m.content = true
  | .dict kvs, path, m => fun hm => by
    have hm2 : m ∈ content_candidates root kvs path ++
        find_content_references_dict root kvs path := hm
    rcases List.mem_append.mp hm2 with h | h
    · exact content_candidates_real root kvs path m h
    · exact find_content_references_dict_real root kvs path m h
  | .list xs, path, m => fun hm => find_content_references_list_real root xs path 0 m hm
  | .str _, _, m => fun hm => nomatch hm
  | .int _, _, m => fun hm => nomatch hm
  | .bool _, _, m => fun hm => nomatch hm
  | .null, _, m => fun hm => nomatch hm

theorem find_content_references_dict_real (root : List PyVal) :
    ∀ (kvs : List (String × PyVal)) (path : String) (m : ContentRef),
      m ∈ find_content_references_dict root kvs path →
      is_real_conversation_message m.content = true
  | [], _, m => fun hm => nomatch hm
  | (k, v) :: rest, path, m => fun hm => by
    have hm2 : m ∈ find_content_references root v
        (if path = "" then k else path ++ "." ++ k) ++
        find_content_references_dict root rest path := hm
    rcases List.mem_append.mp hm2 with h | h
    · exact find_content_references_real root v _ m h
    · exact find_content_references_dict_real root rest path m h

theorem find_content_references_list_real (root : List PyVal) :
    ∀ (xs : List PyVal) (path : String) (i : Nat) (m : ContentRef),
      m ∈ find_content_references_list root xs path i →
      is_real_conversation_message m.content = true
  | [], _, _, m => fun hm => nomatch hm
  | x :: rest, path, i, m => fun hm => by
    have hm2 : m ∈ find_content_references root x
        (if path = "" then "[" ++ toString i ++ "]"
         else path ++ "[" ++ toString i ++ "]") ++
        find_content_references_list root rest path (i + 1) := hm
    rcases List.mem_append.mp hm2 with h | h
    · exact find_content_references_real root x _ m h
    · exact find_content_references_list_real root rest path (i + 1) m h

end

/-- Deduplication only drops entries, so its output is a sub-collection of
its input. -/
theorem dedup_by_content_subset :
    ∀ (l : List ContentRef) (seen : List String) (m : ContentRef),
      m ∈ dedup_by_content l seen → m ∈ l
  | [], _, m => fun hm => nomatch hm
  | x :: rest, seen, m => fun hm => by
    unfold dedup_by_content at hm
    split_ifs at hm with hc
    · exact List.mem_cons_of_mem x (dedup_by_content_subset rest seen m hm)
    · rcases List.mem_cons.mp hm with h | h
      · exact h ▸ List.mem_cons_self x rest
      · exact List.mem_cons_of_mem x (dedup_by_content_subset rest (x.content :: seen) m h)

/-- Left component of a true boolean conjunction. -/
theorem band_true_left {a b : Bool} (h : (a && b) = true) : a = true := by
  rcases a with _ | _ <;> rcases b with _ | _ <;> simp_all

mutual

/-- Every message the Phase-2 scan emits has passed the noise filter. -/
theorem langchain_marker_scan_real :
    ∀ (l : List PyVal) (seen : List String) (m : ChatMsg),
      m ∈ langchain_marker_scan l seen → is_real_conversation_message m.text = true
  | [], _, m => fun hm => nomatch hm
  | .str item :: rest, seen, m => fun hm => by
    have hm2 : m ∈ (if item = "HumanMessage" then scan_marker_payload .user item rest seen
      else if item = "AIMessage" then scan_marker_payload .bot item rest seen
      else if is_real_conversation_message item && !seen.contains item then
        ({ sender := if item.length < 100 then Sender.user else Sender.bot,
           text := item } : ChatMsg) :: langchain_marker_scan rest (item :: seen)
      else langchain_marker_scan rest seen) := hm
    set sdr0 := if item.length < 100 then Sender.user else Sender.bot with hsdr0
    split_ifs at hm2 with h1 h2 h3
    · exact scan_marker_payload_real .user item rest seen m hm2
    · exact scan_marker_payload_real .bot item rest seen m hm2
    · rcases List.mem_cons.mp hm2 with h | h
      · rw [h]; exact band_true_left h3
      · exact langchain_marker_scan_real rest (item :: seen) m h
    · exact langchain_marker_scan_real rest seen m hm2
  | .int _ :: rest, seen, m => fun hm => langchain_marker_scan_real rest seen m hm
  | .bool _ :: rest, seen, m => fun hm => langchain_marker_scan_real rest seen m hm
  | .null :: rest, seen, m => fun hm => langchain_marker_scan_real rest seen m hm
  | .list _ :: rest, seen, m => fun hm => langchain_marker_scan_real rest seen m hm
  | .dict _ :: rest, seen, m => fun hm => langchain_marker_scan_real rest seen m hm

theorem scan_marker_payload_real :
    ∀ (sdr : Sender) (item : String) (l : List PyVal) (seen : List String) (m : ChatMsg),
      m ∈ scan_marker_payload sdr item l seen →
      is_real_conversation_message m.text = true
  | _, item, [], seen, m => fun hm => by
    have hm2 : m ∈ (if is_real_conversation_message item && !seen.contains item then
        [({ sender := if item.length < 100 then Sender.user else Sender.bot,
            text := item } : ChatMsg)]
      else []) := hm
    set sdr0 := if item.length < 100 then Sender.user else Sender.bot with hsdr0
    split_ifs at hm2 with h1
    · rw [List.mem_singleton.mp hm2]; exact band_true_left h1
    · nomatch hm2
  | sdr, item, next :: rest2, seen, m => fun hm => by
    have hm2 : m ∈ (if is_real_conversation_message (pyStr next) &&
        !seen.contains (pyStr next) then
        ({ sender := sdr, text := pyStr next } : ChatMsg) ::
          langchain_marker_scan rest2 (pyStr next :: seen)
      else langchain_marker_scan rest2 seen) := hm
    split_ifs at hm2 with h1
    · rcases List.mem_cons.mp hm2 with h | h
      · rw [h]; exact band_true_left h1
      · exact langchain_marker_scan_real rest2 (pyStr next :: seen) m h
    · exact langchain_marker_scan_real rest2 seen m hm2

end

/-- Every message either extraction phase produces has passed the noise
filter. -/
theorem extract_conversation_real (v : PyVal) :
    ∀ m ∈ extract_conversation_from_data v, is_real_conversation_message m.text = true := by
  intro m hm
  cases v with
  | list xs =>
    by_cases hmk : has_conversation_marker xs = true
    · simp only [extract_conversation_from_data, hmk, Bool.not_true, Bool.false_eq_true,
        if_false] at hm
      split at hm
      · exact langchain_marker_scan_real xs [] m hm
      · rcases List.mem_map.mp hm with ⟨cr, hcr, heq⟩
        have hcr2 : cr ∈ find_content_references xs (.list xs) "" :=
          dedup_by_content_subset _ [] cr hcr
        have hreal := find_content_references_real xs (.list xs) "" cr hcr2
        rw [← heq]
        exact hreal
    · rw [Bool.not_eq_true] at hmk
      simp only [extract_conversation_from_data, hmk, Bool.not_false, if_true] at hm
      nomatch hm
  | str s => nomatch hm
  | int n => nomatch hm
  | bool b => nomatch hm
  | null => nomatch hm
  | dict kvs => nomatch hm

/-- Membership through a stable insertion. -/
theorem mem_insert_by_key {α : Type} (key : α → Int) (a x : α) :
    ∀ l : List α, x ∈ insert_by_key key a l → x = a ∨ x ∈ l
  | [], h => Or.inl (List.mem_singleton.mp h)
  | b :: l, h => by
    unfold insert_by_key at h
    split_ifs at h with hle
    · exact List.mem_cons.mp h
    · rcases List.mem_cons.mp h with h1 | h1
      · exact Or.inr (h1 ▸ List.mem_cons_self b l)
      · rcases mem_insert_by_key key a x l h1 with h2 | h2
        · exact Or.inl h2
        · exact Or.inr (List.mem_cons_of_mem b h2)

/-- Membership through the stable sort. -/
theorem mem_sort_by_key {α : Type} (key : α → Int) :
    ∀ (l : List α) (x : α), x ∈ sort_by_key key l → x ∈ l
  | [], _, h => nomatch h
  | a :: l, x, h => by
    unfold sort_by_key at h
    rcases mem_insert_by_key key a x _ h with h1 | h1
    · exact h1 ▸ List.mem_cons_self a l
    · exact List.mem_cons_of_mem a (mem_sort_by_key key l x h1)

/-- Timestamp assignment keeps each message's sender and text. -/
theorem assign_timestamps_text_mem (total : Nat) (ts : List Int) (now : Int) :
    ∀ (l : List ChatMsg) (i : Nat) (m : TimedMessage),
      m ∈ assign_timestamps total ts now l i →
      ∃ c ∈ l, m.text = c.text ∧ m.sender = c.sender
  | [], _, m => fun hm => nomatch hm
  | c :: rest, i, m => fun hm => by
    unfold assign_timestamps at hm
    rcases List.mem_cons.mp hm with h | h
    · exact ⟨c, List.mem_cons_self c rest, by rw [h], by rw [h]⟩
    · obtain ⟨c2, hc2, he⟩ := assign_timestamps_text_mem total ts now rest (i + 1) m h
      exact ⟨c2, List.mem_cons_of_mem c hc2, he⟩

/-- The shape of a successful reconstruction: once user-info extraction
succeeds, the record is the no-conversation record or the assembled one. -/
theorem extract_chat_messages_eq (data : PyVal) (chat_id : String) (now : Int)
    (ui : UserInfo) (hui : extract_user_info data = .ok ui) :
    extract_chat_messages data chat_id now =
      (if (extract_conversation_from_data data).isEmpty then
        .ok { id := chat_id, created := now, updated := now, messages := [],
              no_conversation := true, status := some "Registro sin conversación",
              user_info := ui }
      else
        .ok { id := chat_id,
              created := match sort_by_key (fun m => m.timestamp)
                  (assign_timestamps (extract_conversation_from_data data).length
                    (extract_timestamps_from_data data now) now
                    (extract_conversation_from_data data) 0) with
                | m :: _ => m.timestamp
                | [] => now,
              updated := now,
              messages := sort_by_key (fun m => m.timestamp)
                  (assign_timestamps (extract_conversation_from_data data).length
                    (extract_timestamps_from_data data now) now
                    (extract_conversation_from_data data) 0),
              no_conversation := false, status := none, user_info := ui }) := by
  unfold extract_chat_messages
  rw [hui]

/-- C6: no message text in a reconstructed record contains any technical
keyword — both phases gate every accepted string through
`is_real_conversation_message`, which rejects keyword-bearing strings, and
assignment and sorting only rearrange those strings. -/
theorem noise_excluded_from_output (data : PyVal) (chat_id : String) (now : Int)
    (r : ChatRecord) (hok : extract_chat_messages data chat_id now = .ok r) :
    ∀ m ∈ r.messages, ∀ kw ∈ technical_keywords, strContains m.text kw = false := by
  intro m hm kw hkw
  cases hui : extract_user_info data with
  | error e =>
    rw [extract_chat_messages] at hok
    rw [hui] at hok
    cases hok
  | ok ui =>
    rw [extract_chat_messages_eq data chat_id now ui hui] at hok
    by_cases hconv : (extract_conversation_from_data data).isEmpty
    · rw [if_pos hconv] at hok
      rw [← Except.ok.inj hok] at hm
      nomatch hm
    · rw [if_neg hconv] at hok
      rw [← Except.ok.inj hok] at hm
      have hm2 : m ∈ sort_by_key (fun m => m.timestamp)
          (assign_timestamps (extract_conversation_from_data data).length
            (extract_timestamps_from_data data now) now
            (extract_conversation_from_data data) 0) := hm
      have hm3 := mem_sort_by_key (fun m => m.timestamp) _ m hm2
      obtain ⟨c, hc, htext, _⟩ := assign_timestamps_text_mem _ _ _ _ _ m hm3
      have hreal := extract_conversation_real data c hc
      rw [htext]
      exact is_real_no_keyword c.text hreal kw hkw

/-- C6 witness: the reconstructed `"hola"` message carries no
`"prompt_tokens"`. -/
theorem noise_excluded_from_output_witness :
    strContains "hola" "prompt_tokens" = false :=
  noise_excluded_from_output
    (.list [.str "HumanMessage", .str "hola", .dict [("content", .str "1")]]) "c" 0
    { id := "c", created := -3600000, updated := 0,
      messages := [{ sender := .user, text := "hola", timestamp := -3600000 }],
      no_conversation := false, status := none,
      user_info := { phone_number := none, user_name := none } }
    rfl
    { sender := .user, text := "hola", timestamp := -3600000 } (by decide)
    "prompt_tokens" (by decide)

/-- Stable insertion preserves non-decreasing key order. -/
theorem pairwise_insert_by_key {α : Type} (key : α → Int) (a : α) :
    ∀ l : List α, List.Pairwise (fun x y => key x ≤ key y) l →
      List.Pairwise (fun x y => key x ≤ key y) (insert_by_key key a l)
  | [], _ => List.pairwise_singleton _ a
  | b :: l, h => by
    unfold insert_by_key
    split_ifs with hle
    · refine List.Pairwise.cons ?_ h
      intro x hx
      rcases List.mem_cons.mp hx with h1 | h1
      · exact h1 ▸ hle
      · exact le_trans hle (List.rel_of_pairwise_cons h h1)
    · have hb : key b ≤ key a := le_of_not_le hle
      refine List.Pairwise.cons ?_ (pairwise_insert_by_key key a l (List.Pairwise.of_cons h))
      intro x hx
      rcases mem_insert_by_key key a x l hx with h1 | h1
      · exact h1 ▸ hb
      · exact List.rel_of_pairwise_cons h h1

/-- The stable sort produces a list in non-decreasing key order. -/
theorem sort_by_key_pairwise {α : Type} (key : α → Int) :
    ∀ l : List α, List.Pairwise (fun x y => key x ≤ key y) (sort_by_key key l)
  | [] => List.Pairwise.nil
  | a :: l => pairwise_insert_by_key key a _ (sort_by_key_pairwise key l)

/-- Stable insertion does not disturb the subsequence of any fixed key:
the inserted element passes only elements with strictly smaller keys. -/
theorem filter_insert_by_key {α : Type} (key : α → Int) (a : α) (t : Int) :
    ∀ l : List α,
      (insert_by_key key a l).filter (fun x => key x == t) =
        (a :: l).filter (fun x => key x == t)
  | [] => rfl
  | b :: l => by
    unfold insert_by_key
    split_ifs with hle
    · rfl
    · have hlt : key b < key a := lt_of_not_le hle
      by_cases hat : (key a == t) = true
      · have hbt : (key b == t) = false := by
          have ha : key a = t := by simpa using hat
          have : key b ≠ t := by omega
          simpa using this
        simp [List.filter_cons, hat, hbt, filter_insert_by_key key a t l]
      · have hat2 : (key a == t) = false := by simpa using hat
        simp [List.filter_cons, hat2, filter_insert_by_key key a t l]

/-- Stability of the sort: for every key value, the sorted list carries the
same-key elements in their original relative order. -/
theorem sort_by_key_filter {α : Type} (key : α → Int) (t : Int) :
    ∀ l : List α,
      (sort_by_key key l).filter (fun x => key x == t) =
        l.filter (fun x => key x == t)
  | [] => rfl
  | a :: l => by
    show (insert_by_key key a (sort_by_key key l)).filter _ = _
    rw [filter_insert_by_key]
    simp only [List.filter_cons]
    rw [sort_by_key_filter key t l]

/-- C7: a reconstructed record with messages carries them sorted
non-decreasingly by timestamp; equal-timestamp messages keep the relative
order the assignment loop produced (Python's `list.sort` is stable); and
`created` is the first sorted message's timestamp. -/
theorem messages_sorted_created_first (data : PyVal) (chat_id : String) (now : Int)
    (r : ChatRecord) (hok : extract_chat_messages data chat_id now = .ok r)
    (hne : r.messages ≠ []) :
    List.Pairwise (fun a b => a.timestamp ≤ b.timestamp) r.messages ∧
    (∀ t : Int, r.messages.filter (fun m => m.timestamp == t) =
      (assign_timestamps (extract_conversation_from_data data).length
        (extract_timestamps_from_data data now) now
        (extract_conversation_from_data data) 0).filter (fun m => m.timestamp == t)) ∧
    (∀ m rest, r.messages = m :: rest → r.created = m.timestamp) := by
  cases hui : extract_user_info data with
  | error e =>
    rw [extract_chat_messages] at hok
    rw [hui] at hok
    cases hok
  | ok ui =>
    rw [extract_chat_messages_eq data chat_id now ui hui] at hok
    by_cases hconv : (extract_conversation_from_data data).isEmpty
    · rw [if_pos hconv] at hok
      rw [← Except.ok.inj hok] at hne
      exact absurd rfl hne
    · rw [if_neg hconv] at hok
      have heq := (Except.ok.inj hok).symm
      have hmsg : r.messages = sort_by_key (fun m => m.timestamp)
          (assign_timestamps (extract_conversation_from_data data).length
            (extract_timestamps_from_data data now) now
            (extract_conversation_from_data data) 0) := by rw [heq]
      have hcre : r.created = match sort_by_key (fun m : TimedMessage => m.timestamp)
          (assign_timestamps (extract_conversation_from_data data).length
            (extract_timestamps_from_data data now) now
            (extract_conversation_from_data data) 0) with
        | m2 :: _ => m2.timestamp
        | [] => now := by rw [heq]
      refine ⟨?_, ?_, ?_⟩
      · rw [hmsg]
        exact sort_by_key_pairwise (fun m : TimedMessage => m.timestamp) _
      · intro t
        rw [hmsg]
        exact sort_by_key_filter (fun m : TimedMessage => m.timestamp) t _
      · intro m rest hmr
        rw [hmsg] at hmr
        rw [hcre, hmr]

/-- C7 witness: the reconstructed record of a one-message log is sorted and
takes its `created` from the first message. -/
theorem messages_sorted_created_first_witness :
    List.Pairwise (fun a b : TimedMessage => a.timestamp ≤ b.timestamp)
      ({ id := "c", created := -3600000, updated := 0,
         messages := [{ sender := Sender.user, text := "hola", timestamp := -3600000 }],
         no_conversation := false, status := none,
         user_info := { phone_number := none, user_name := none } } : ChatRecord).messages ∧
    ({ id := "c", created := -3600000, updated := 0,
       messages := [{ sender := Sender.user, text := "hola", timestamp := -3600000 }],
       no_conversation := false, status := none,
       user_info := { phone_number := none, user_name := none } } : ChatRecord).created =
      ({ sender := Sender.user, text := "hola",
         timestamp := -3600000 } : TimedMessage).timestamp := by
  have h := messages_sorted_created_first
    (.list [.str "HumanMessage", .str "hola", .dict [("content", .str "1")]]) "c" 0
    { id := "c", created := -3600000, updated := 0,
      messages := [{ sender := Sender.user, text := "hola", timestamp := -3600000 }],
      no_conversation := false, status := none,
      user_info := { phone_number := none, user_name := none } }
    rfl (by decide)
  exact ⟨h.1, h.2.2 _ [] rfl⟩
